import Mathlib

/-
Shallow embedding of src/server.py (PyMicroHTTP): the HTTP request parser,
route registry, middleware chaining, response serialization, rate limiter,
and the per-connection worker loop.

Conventions of the embedding:
* Python strings are Lean `String`; character-level operations from the
  source (slicing, `str.split`, `str.index`) are implemented over `List Char`
  with structural/fuel recursion so that everything kernel-reduces.
* Python exceptions become `Except`/outcome constructors; the point where an
  exception escapes `__handleConnection` is the `ConnOutcome.raised`
  constructor (the `with conn:` block then closes the socket and the worker
  thread terminates; the accept loop in the main thread is unaffected).
* `time.time()` values are modelled as integers in abstract time units: the
  rate limiter uses only subtraction and ordering on timestamps, and
  floating point is outside the embedding.
* Python dicts with string keys are association lists with unique keys,
  via `dictInsert` / `dictGet` below.
-/

deriving instance DecidableEq for Except

/-- Python dict assignment `d[k] = v`: replace the value of an existing key
in place (dicts keep insertion order), otherwise append the new binding. -/
def dictInsert {α : Type} : List (String × α) → String → α → List (String × α)
  | [], key, v => [(key, v)]
  | (k, w) :: rest, key, v =>
    if k = key then (k, v) :: rest else (k, w) :: dictInsert rest key v

/-- Python dict lookup `d[k]` / `d.get(k)`, as an `Option`. -/
def dictGet {α : Type} : List (String × α) → String → Option α
  | [], _ => none
  | (k, v) :: rest, key => if k = key then some v else dictGet rest key

/-- Worker for `pySplit`, structural in the fuel (fuel is always at least the
length of the remaining input, so the fuel-exhausted branch is unreachable). -/
def pySplitAux (sep : List Char) : Nat → List Char → List Char → List (List Char)
  | _, [], acc => [acc.reverse]
  | 0, cs, acc => [acc.reverse ++ cs]
  | fuel + 1, c :: rest, acc =>
    if sep.isPrefixOf (c :: rest) then
      acc.reverse :: pySplitAux sep fuel ((c :: rest).drop sep.length) []
    else
      pySplitAux sep fuel rest (c :: acc)

/-- Python `s.split(sep)` for a non-empty separator: split on every
non-overlapping occurrence of `sep`, left to right; a string with no
occurrence yields the one-element list `[s]`. -/
def pySplit (s sep : String) : List String :=
  (pySplitAux sep.toList (s.toList.length + 1) s.toList []).map String.mk

/-- Python `sub in s` (substring containment): for a non-empty `sub`,
`s.split(sub)` has at least two parts exactly when `sub` occurs in `s`. -/
def pyInStr (sub s : String) : Bool :=
  if sub = "" then true else (pySplit s sub).length ≥ 2

/-- Python `data.rstrip(b'\x00')` from `__handleConnection` line 173:
drop trailing NUL characters. -/
def rstripNull (s : String) : String :=
  String.mk (s.toList.reverse.dropWhile (fun c => c = '\x00')).reverse

/-- The ways `Server.__parseRequest` raises (all are `ValueError`s in Python):
the head/body unpack at line 226 when `split('\r\n\r\n')` does not yield
exactly two parts (in particular when there is no blank-line separator), the
request-line unpack at line 230 when the first head line does not split on
single spaces into exactly three fields, and `line.index(':')` at line 233
when a header line has no colon. -/
inductive ParseError where
  | headBodyUnpack (parts : Nat)
  | requestLineUnpack (parts : Nat)
  | headerColonMissing (line : String)
deriving DecidableEq, Repr

/-- The request dict built by `__parseRequest` (lines 237-242); `client_ip`
and `parsed_body` are added later by the caller. -/
structure RawRequest where
  verb : String
  path : String
  headers : List (String × String)
  body : String
deriving DecidableEq, Repr

/-- The header loop of `__parseRequest` (lines 232-235): for each line,
`idx = line.index(':')` (a `ValueError` when absent), key `line[:idx]`,
value `line[idx+2:]` (the colon and one further character are skipped),
stored by dict assignment so duplicate names overwrite. -/
def parseHeaderLines : List String → List (String × String) →
    Except ParseError (List (String × String))
  | [], acc => .ok acc
  | line :: rest, acc =>
    let cs := line.toList
    if cs.contains ':' then
      let idx := (cs.takeWhile (fun c => c ≠ ':')).length
      parseHeaderLines rest
        (dictInsert acc (String.mk (cs.take idx)) (String.mk (cs.drop (idx + 2))))
    else .error (.headerColonMissing line)

/-- `Server.__parseRequest` (lines 224-242). `head, body = reqstr.split(sep+sep)`
requires exactly two parts; `verb, path, _ = head.split(' ')` requires exactly
three; header lines need a colon. `split` always returns a non-empty list, so
`headlines[0]` cannot fail; we use `headD ""` for that access. -/
def parseRequest (reqstr : String) : Except ParseError RawRequest :=
  match pySplit reqstr ("\r\n" ++ "\r\n") with
  | [head, body] =>
    match pySplit ((pySplit head "\r\n").headD "") " " with
    | [verb, path, _version] =>
      (parseHeaderLines ((pySplit head "\r\n").drop 1) []).map fun headers =>
        { verb := verb, path := path, headers := headers, body := body }
    | parts => .error (.requestLineUnpack parts.length)
  | parts => .error (.headBodyUnpack parts.length)

/-- JSON insignificant whitespace. -/
def jsonIsWs (c : Char) : Bool :=
  c = ' ' || c = '\t' || c = '\n' || c = '\r'

/-- Skip leading JSON whitespace. -/
def jsonSkipWs : List Char → List Char
  | [] => []
  | c :: rest => if jsonIsWs c then jsonSkipWs rest else c :: rest

/-- ASCII decimal digit test. -/
def isJsonDigit (c : Char) : Bool := '0' ≤ c && c ≤ '9'

/-- Hexadecimal digit value, if any. -/
def hexVal (c : Char) : Option Nat :=
  if '0' ≤ c && c ≤ '9' then some (c.toNat - 48)
  else if 'a' ≤ c && c ≤ 'f' then some (c.toNat - 87)
  else if 'A' ≤ c && c ≤ 'F' then some (c.toNat - 70)
  else none

/-- Consume a maximal run of decimal digits, returning how many were seen. -/
def chompDigits : List Char → Nat × List Char
  | [] => (0, [])
  | c :: rest =>
    if isJsonDigit c then
      let (n, r) := chompDigits rest
      (n + 1, r)
    else (0, c :: rest)

/-- Consume an optional JSON fraction part (a dot requires at least one digit). -/
def jsonChompFrac : List Char → Option (List Char)
  | '.' :: rest =>
    let (n, r) := chompDigits rest
    if n = 0 then none else some r
  | cs => some cs

/-- Consume an optional JSON exponent part. -/
def jsonChompExp : List Char → Option (List Char)
  | [] => some []
  | c :: rest =>
    if c = 'e' || c = 'E' then
      let rest2 := match rest with
        | s :: r2 => if s = '+' || s = '-' then r2 else rest
        | [] => rest
      let (n, r) := chompDigits rest2
      if n = 0 then none else some r
    else some (c :: rest)

/-- Consume a JSON number after an optional leading minus sign: either a
single zero or a nonzero digit followed by digits, then fraction/exponent. -/
def jsonChompNumber (cs : List Char) : Option (List Char) := do
  let afterInt ← match cs with
    | '0' :: rest => some rest
    | c :: rest => if isJsonDigit c then some (chompDigits rest).2 else none
    | [] => none
  let afterFrac ← jsonChompFrac afterInt
  jsonChompExp afterFrac

/-- Consume the remainder of a JSON string literal (the opening quote has
been consumed): plain characters above the control range, the short escapes,
and four-hex-digit unicode escapes; raw control characters are rejected. -/
def jsonChompStr : List Char → Option (List Char)
  | [] => none
  | '"' :: rest => some rest
  | '\\' :: 'u' :: a :: b :: c :: d :: rest =>
    if (hexVal a).isSome && (hexVal b).isSome && (hexVal c).isSome && (hexVal d).isSome then
      jsonChompStr rest
    else none
  | '\\' :: e :: rest =>
    if e = '"' || e = '\\' || e = '/' || e = 'b' || e = 'f' || e = 'n' || e = 'r' || e = 't' then
      jsonChompStr rest
    else none
  | c :: rest => if c.toNat < 32 then none else jsonChompStr rest

mutual

/-- Consume one JSON value (fuel bounds the recursion; `jsonValid` supplies
enough fuel that exhaustion is unreachable). Python's `json.loads` also
accepts the non-standard `NaN`, `Infinity` and `-Infinity` by default. -/
def jsonChompValue : Nat → List Char → Option (List Char)
  | 0, _ => none
  | fuel + 1, cs =>
    match jsonSkipWs cs with
    | 'n' :: 'u' :: 'l' :: 'l' :: rest => some rest
    | 't' :: 'r' :: 'u' :: 'e' :: rest => some rest
    | 'f' :: 'a' :: 'l' :: 's' :: 'e' :: rest => some rest
    | 'N' :: 'a' :: 'N' :: rest => some rest
    | 'I' :: 'n' :: 'f' :: 'i' :: 'n' :: 'i' :: 't' :: 'y' :: rest => some rest
    | '-' :: 'I' :: 'n' :: 'f' :: 'i' :: 'n' :: 'i' :: 't' :: 'y' :: rest => some rest
    | '"' :: rest => jsonChompStr rest
    | '[' :: rest => jsonChompArr fuel rest
    | '\x7b' :: rest => jsonChompObj fuel rest
    | '-' :: rest => jsonChompNumber rest
    | c :: rest => if isJsonDigit c then jsonChompNumber (c :: rest) else none
    | [] => none

/-- Consume the remainder of a JSON array (after the opening bracket). -/
def jsonChompArr : Nat → List Char → Option (List Char)
  | 0, _ => none
  | fuel + 1, cs =>
    match jsonSkipWs cs with
    | ']' :: rest => some rest
    | cs2 => jsonChompElems fuel cs2

/-- Consume comma-separated array elements up to the closing bracket. -/
def jsonChompElems : Nat → List Char → Option (List Char)
  | 0, _ => none
  | fuel + 1, cs => do
    let rest ← jsonChompValue fuel cs
    match jsonSkipWs rest with
    | ',' :: rest2 => jsonChompElems fuel rest2
    | ']' :: rest2 => some rest2
    | _ => none

/-- Consume the remainder of a JSON object (after the opening brace). -/
def jsonChompObj : Nat → List Char → Option (List Char)
  | 0, _ => none
  | fuel + 1, cs =>
    match jsonSkipWs cs with
    | '\x7d' :: rest => some rest
    | cs2 => jsonChompMembers fuel cs2

/-- Consume comma-separated `"key": value` members up to the closing brace. -/
def jsonChompMembers : Nat → List Char → Option (List Char)
  | 0, _ => none
  | fuel + 1, cs =>
    match jsonSkipWs cs with
    | '"' :: rest => do
      let rest2 ← jsonChompStr rest
      match jsonSkipWs rest2 with
      | ':' :: rest3 => do
        let rest4 ← jsonChompValue fuel rest3
        match jsonSkipWs rest4 with
        | ',' :: rest5 => jsonChompMembers fuel rest5
        | '\x7d' :: rest5 => some rest5
        | _ => none
      | _ => none
    | _ => none

end

/-- Models the stdlib collaborator `json.loads` at the level the server
observes: whether decoding raises `JSONDecodeError`. The decoded value is
never inspected by `server.py` (it is only stored in `parsed_body`), so the
model records validity of the text. -/
def jsonValid (s : String) : Bool :=
  let cs := s.toList
  match jsonChompValue (3 * cs.length + 3) cs with
  | some rest => (jsonSkipWs rest).isEmpty
  | none => false

/-- Percent-decoding step of the stdlib collaborator `urllib.parse.unquote`:
`%hh` with two hex digits becomes the character of that byte value
(multi-byte UTF-8 percent sequences are modelled bytewise); an invalid
escape is left as literal text. -/
def pctDecode : List Char → List Char
  | [] => []
  | '%' :: a :: b :: rest =>
    (match hexVal a, hexVal b with
     | some ha, some hb => Char.ofNat (16 * ha + hb) :: pctDecode rest
     | _, _ => '%' :: pctDecode (a :: b :: rest))
  | c :: rest => c :: pctDecode rest

/-- Stdlib `urllib.parse.unquote_plus`: plus signs become spaces, then
percent-escapes are decoded. -/
def unquotePlus (s : String) : String :=
  String.mk (pctDecode (s.toList.map fun c => if c = '+' then ' ' else c))

/-- Models the stdlib collaborator `urllib.parse.parse_qsl` with its default
arguments: split the query string on ampersands, skip empty chunks, skip
chunks with no equals sign, split each remaining chunk on the first equals
sign, drop pairs whose value is empty, and unquote names and values. -/
def parseQsl (qs : String) : List (String × String) :=
  (pySplit qs "&").filterMap fun nv =>
    if nv = "" then none
    else
      match pySplit nv "=" with
      | [] => none
      | [_] => none
      | name :: rest =>
        let value := String.intercalate "=" rest
        if value = "" then none
        else some (unquotePlus name, unquotePlus value)

/-- Python `dict(pairs)`: later bindings for the same key overwrite. -/
def pyDictOf (pairs : List (String × String)) : List (String × String) :=
  pairs.foldl (fun d kv => dictInsert d kv.1 kv.2) []

/-- The `parsed_body` variants produced by `parse_body` (lines 263-269):
a successfully decoded JSON body (the raw text; see `jsonValid`), a form
mapping, or the raw string. -/
inductive ParsedBody where
  | jsonBody (raw : String)
  | form (kvs : List (String × String))
  | raw (s : String)
deriving DecidableEq, Repr

/-- The Python errors that can escape the worker; all but `jsonDecodeFailure`
and `headersNotDict` are `ValueError`s. -/
inductive PyError where
  | parseFailure (e : ParseError)
  | jsonDecodeFailure
  | badResultArity (n : Nat)
  | headersNotDict
  | invalidPath (path : String)
deriving DecidableEq, Repr

/-- `parse_body` (lines 263-269): choose the body decoding by substring
containment on the Content-Type header (`.get` with default empty string);
`json.loads` can raise, the other branches cannot. -/
def parse_body (headers : List (String × String)) (body : String) :
    Except PyError ParsedBody :=
  let content_type := (dictGet headers "Content-Type").getD ""
  if pyInStr "application/json" content_type then
    if jsonValid body then .ok (.jsonBody body) else .error .jsonDecodeFailure
  else if pyInStr "application/x-www-form-urlencoded" content_type then
    .ok (.form (pyDictOf (parseQsl body)))
  else .ok (.raw body)

/-- The Python values the server passes around as bodies, status codes and
header mappings: strings, integers, and flat string-to-string dicts (the
shapes exercised by `server.py`). -/
inductive PyVal where
  | vstr (s : String)
  | vint (n : Int)
  | vdict (entries : List (String × String))
deriving DecidableEq, Repr

/-- One hexadecimal digit, lowercase, as emitted by `json.dumps` escapes. -/
def hexDigit (n : Nat) : Char :=
  if n < 10 then Char.ofNat (48 + n) else Char.ofNat (87 + n)

/-- A `\uXXXX` escape for a code unit. -/
def uEscape (n : Nat) : List Char :=
  ['\\', 'u', hexDigit (n / 4096 % 16), hexDigit (n / 256 % 16),
   hexDigit (n / 16 % 16), hexDigit (n % 16)]

/-- Per-character escaping of `json.dumps` with its default `ensure_ascii`:
named escapes for quote, backslash and the common control characters, and
`\uXXXX` (surrogate pairs beyond the BMP) for other control or non-ASCII
characters. -/
def jsonEscapeChar (c : Char) : List Char :=
  if c = '"' then ['\\', '"']
  else if c = '\\' then ['\\', '\\']
  else if c = '\n' then ['\\', 'n']
  else if c = '\r' then ['\\', 'r']
  else if c = '\t' then ['\\', 't']
  else if c.toNat = 8 then ['\\', 'b']
  else if c.toNat = 12 then ['\\', 'f']
  else if c.toNat < 32 || c.toNat > 126 then
    if c.toNat ≤ 65535 then uEscape c.toNat
    else
      let v := c.toNat - 65536
      uEscape (55296 + v / 1024) ++ uEscape (56320 + v % 1024)
  else [c]

/-- A JSON string literal for `json.dumps`. -/
def jsonQuote (s : String) : String :=
  String.mk ('"' :: ((s.toList.map jsonEscapeChar).flatten ++ ['"']))

/-- Models the stdlib collaborator `json.dumps` on the flat string-to-string
dicts of this model, with the default separators. -/
def jsonDumps (d : List (String × String)) : String :=
  "\x7b" ++ String.intercalate ", "
    (d.map fun kv => jsonQuote kv.1 ++ ": " ++ jsonQuote kv.2) ++ "\x7d"

/-- Python `str()` on the values of this model. `str` of a dict is its repr
with single quotes (the quote-choice subtleties of `repr` for strings that
themselves contain quotes are modelled as backslash escaping). -/
def pyStr : PyVal → String
  | .vstr s => s
  | .vint n => toString n
  | .vdict d =>
    "\x7b" ++ String.intercalate ", "
      (d.map fun kv =>
        "'" ++ kv.1 ++ "': '" ++ kv.2 ++ "'") ++ "\x7d"

/-- `Server.__checkIfResultIsDict` (lines 201-204): JSON-encode a dict body,
pass anything else through unchanged. -/
def checkIfResultIsDict : PyVal → PyVal
  | .vdict d => .vstr (jsonDumps d)
  | v => v

/-- The stdlib collaborator `http.client.responses` (the entries for the
standard status codes; `__writeReponse` falls back to "Unknown" for any code
not in the table). -/
def httpReasons : List (Int × String) :=
  [(100, "Continue"), (101, "Switching Protocols"), (200, "OK"),
   (201, "Created"), (202, "Accepted"), (203, "Non-Authoritative Information"),
   (204, "No Content"), (205, "Reset Content"), (206, "Partial Content"),
   (300, "Multiple Choices"), (301, "Moved Permanently"), (302, "Found"),
   (303, "See Other"), (304, "Not Modified"), (305, "Use Proxy"),
   (307, "Temporary Redirect"), (308, "Permanent Redirect"),
   (400, "Bad Request"), (401, "Unauthorized"), (402, "Payment Required"),
   (403, "Forbidden"), (404, "Not Found"), (405, "Method Not Allowed"),
   (406, "Not Acceptable"), (407, "Proxy Authentication Required"),
   (408, "Request Timeout"), (409, "Conflict"), (410, "Gone"),
   (411, "Length Required"), (412, "Precondition Failed"),
   (413, "Request Entity Too Large"), (414, "Request-URI Too Long"),
   (415, "Unsupported Media Type"), (416, "Requested Range Not Satisfiable"),
   (417, "Expectation Failed"), (418, "I'm a Teapot"),
   (421, "Misdirected Request"), (422, "Unprocessable Entity"),
   (423, "Locked"), (424, "Failed Dependency"), (425, "Too Early"),
   (426, "Upgrade Required"), (428, "Precondition Required"),
   (429, "Too Many Requests"), (431, "Request Header Fields Too Large"),
   (451, "Unavailable For Legal Reasons"), (500, "Internal Server Error"),
   (501, "Not Implemented"), (502, "Bad Gateway"), (503, "Service Unavailable"),
   (504, "Gateway Timeout"), (505, "HTTP Version Not Supported"),
   (506, "Variant Also Negotiates"), (507, "Insufficient Storage"),
   (508, "Loop Detected"), (510, "Not Extended"),
   (511, "Network Authentication Required")]

/-- `responses.get(code, 'Unknown')` from line 208: only integer codes can
hit the table. -/
def reasonPhrase : PyVal → String
  | .vint n => (httpReasons.lookup n).getD "Unknown"
  | _ => "Unknown"

/-- The response assembled by `Server.__writeReponse` (lines 206-222), as its
fields in emission order; `renderResponse` flattens it to the wire string.
`contentLength` is `len(resp)` computed on the Python `str` BEFORE the final
`.encode()` — that is, a count of characters, not of UTF-8 bytes. -/
structure WireResponse where
  code : PyVal
  reason : String
  contentType : String
  contentLength : Nat
  extraHeaders : List (String × String)
  body : String
deriving DecidableEq, Repr

/-- `Server.__writeReponse` (lines 206-222; the source's spelling is kept):
coerce the body with `str`, look up the reason phrase with default
"Unknown", and emit Content-Type, Content-Length (`len` of the character
string), then the extra headers. -/
def writeReponse (resp : PyVal) (code : PyVal := .vint 200)
    (headers : List (String × String) := [])
    (contentType : String := "application/json") : WireResponse :=
  let respS := pyStr resp
  { code := code, reason := reasonPhrase code, contentType := contentType,
    contentLength := respS.length, extraHeaders := headers, body := respS }

/-- The exact wire string built by `__writeReponse` (the bytes sent are its
UTF-8 encoding, from the final `.encode()`). -/
def renderResponse (w : WireResponse) : String :=
  "HTTP/1.1 " ++ pyStr w.code ++ " " ++ w.reason ++ "\r\n" ++
  "Content-Type: " ++ w.contentType ++ "\r\n" ++
  "Content-Length: " ++ toString w.contentLength ++ "\r\n" ++
  String.join (w.extraHeaders.map fun kv => kv.1 ++ ": " ++ kv.2 ++ "\r\n") ++
  "\r\n" ++ w.body

/-- The request dict as seen by handlers: the parsed fields plus `client_ip`
(line 175) and `parsed_body` (line 176). -/
structure Request where
  verb : String
  path : String
  headers : List (String × String)
  body : String
  client_ip : String
  parsed_body : ParsedBody
deriving DecidableEq, Repr

/-- What a handler or middleware returns: a bare value, or a tuple. The
dispatch code (lines 188-198) inspects only `isinstance(result, tuple)` and
`len(result)`, then destructures pairs and triples. -/
inductive HResult where
  | bare (v : PyVal)
  | tuple (elems : List PyVal)
deriving DecidableEq, Repr

/-- A route handler. -/
abbrev Handler := Request → HResult

/-- `Server.__chainMiddlewares` (lines 248-251): `for middleware in
reversed(middlewares): func = middleware(func)` — the last middleware wraps
the handler first and the first middleware wraps last, i.e. a right fold.
The Python function is untyped, so the model is generic. -/
def chainMiddlewares {α : Type} (middlewares : List (α → α)) (func : α) : α :=
  middlewares.foldr (fun middleware f => middleware f) func

/-- How one execution of the worker body ends. Every constructor implies the
connection is closed afterwards: `closed` is the `break` on an empty read
(line 171), `returned` is one of the `return conn.sendall(...)` statements
(lines 189, 193, 196, 199), and `raised` is an exception propagating out of
the function — the `with conn:` block closes the socket, the worker thread
terminates with the error, and the main accept loop is unaffected. `sent`
lists the responses written before the end. -/
inductive ConnOutcome where
  | closed (sent : List WireResponse)
  | returned (sent : List WireResponse)
  | raised (sent : List WireResponse) (err : PyError)
deriving DecidableEq, Repr

/-- The responses written to the socket in an outcome. -/
def sentResponses : ConnOutcome → List WireResponse
  | .closed sent => sent
  | .returned sent => sent
  | .raised sent _ => sent

/-- `headers.items()` in `__writeReponse` requires the third tuple element to
be a dict; anything else raises `AttributeError`. -/
def asHeaderDict : PyVal → Option (List (String × String))
  | .vdict d => some d
  | _ => none

/-- The result-shape analysis of `__handleConnection` lines 188-198: a bare
value is sent with the defaults; a triple is sent as body, code, headers; a
pair as body, code; any other tuple length first sends a 500 response with
empty body and then raises a `ValueError` naming the arity. -/
def respondWith (result : HResult) : ConnOutcome :=
  match result with
  | .bare v => .returned [writeReponse (checkIfResultIsDict v)]
  | .tuple [response, code, headers] =>
    match asHeaderDict headers with
    | some hs => .returned [writeReponse (checkIfResultIsDict response) code hs]
    | none => .raised [] .headersNotDict
  | .tuple [response, code] =>
    .returned [writeReponse (checkIfResultIsDict response) code]
  | .tuple elems =>
    .raised [writeReponse (.vstr "") (.vint 500)] (.badResultArity elems.length)

/-- The route key `f'{parsed["verb"]} {parsed["path"]}'` of line 177. -/
def pathKeyOf (req : Request) : String := req.verb ++ " " ++ req.path

/-- Route lookup and dispatch (lines 179-199): exact key match in the routes
dict; when the global (before-all) middleware list is non-empty it wraps the
stored handler at dispatch time; an unmatched key is answered with
`__writeReponse('', 404)`. -/
def handleParsed (routes : List (String × Handler))
    (beforeAllMiddlewares : List (Handler → Handler)) (parsed : Request) :
    ConnOutcome :=
  match dictGet routes (pathKeyOf parsed) with
  | some handler =>
    respondWith
      (if beforeAllMiddlewares.isEmpty then handler parsed
       else chainMiddlewares beforeAllMiddlewares handler parsed)
  | none => .returned [writeReponse (.vstr "") (.vint 404)]

/-- Lines 173-199 for one non-empty chunk: strip trailing NULs and decode,
parse (a failure propagates), attach `client_ip` and `parsed_body` (a JSON
decode failure propagates), then dispatch. -/
def handleData (routes : List (String × Handler))
    (beforeAllMiddlewares : List (Handler → Handler)) (client_ip : String)
    (data : String) : ConnOutcome :=
  match parseRequest (rstripNull data) with
  | .error e => .raised [] (.parseFailure e)
  | .ok raw =>
    match parse_body raw.headers raw.body with
    | .error e => .raised [] e
    | .ok pb =>
      handleParsed routes beforeAllMiddlewares
        { verb := raw.verb, path := raw.path, headers := raw.headers,
          body := raw.body, client_ip := client_ip, parsed_body := pb }

/-- `Server.__handleConnection` (lines 166-199) over the successive chunks
the socket delivers (an exhausted list or an empty chunk is `recv` returning
no data). The loop body never reaches a second iteration with data: every
branch after a non-empty read ends in `return` (lines 189, 193, 196, 199) or
`raise` (line 198), so chunks after the first are never read. -/
def handleConnection (routes : List (String × Handler))
    (beforeAllMiddlewares : List (Handler → Handler)) (client_ip : String) :
    List String → ConnOutcome
  | [] => .closed []
  | data :: _laterChunks =>
    if data = "" then .closed []
    else handleData routes beforeAllMiddlewares client_ip data

/-- The whitespace characters matched by `\s` (equivalently excluded by
`[^\s]`) in Python `re` on `str` patterns: the ASCII whitespace and the
Unicode space characters. -/
def pyWhitespace : List Char :=
  [' ', '\t', '\n', '\r', '\x0b', '\x0c',
   '\x1c', '\x1d', '\x1e', '\x1f', '\x85', '\xa0',
   Char.ofNat 0x1680, Char.ofNat 0x2000, Char.ofNat 0x2001, Char.ofNat 0x2002,
   Char.ofNat 0x2003, Char.ofNat 0x2004, Char.ofNat 0x2005, Char.ofNat 0x2006,
   Char.ofNat 0x2007, Char.ofNat 0x2008, Char.ofNat 0x2009, Char.ofNat 0x200a,
   Char.ofNat 0x2028, Char.ofNat 0x2029, Char.ofNat 0x202f, Char.ofNat 0x205f,
   Char.ofNat 0x3000]

/-- Python `\s` character test. -/
def isPySpace (c : Char) : Bool := pyWhitespace.contains c

/-- The verb alternation of the route-key pattern (line 245). -/
def httpVerbs : List String :=
  ["GET", "POST", "PUT", "DELETE", "HEAD", "OPTIONS", "PATCH"]

/-- A full match of `(GET|POST|PUT|DELETE|HEAD|OPTIONS|PATCH) /[^\s]*`
against a character list: a verb, a space, a slash, then no whitespace. -/
def matchesRouteCore (cs : List Char) : Bool :=
  httpVerbs.any fun verb =>
    ((verb ++ " /").toList.isPrefixOf cs) &&
      ((cs.drop (verb.length + 2)).all fun c => !(isPySpace c))

/-- `Server.__isPathValid` (lines 244-246): `re.match` of the anchored
pattern `^(GET|POST|PUT|DELETE|HEAD|OPTIONS|PATCH) /[^\s]*$`. In Python `re`,
`$` also matches just before a single trailing newline, and `[^\s]*` can
never consume that newline, so a key with one trailing newline matches
exactly when the key without it does. -/
def isPathValid (path : String) : Bool :=
  let cs := path.toList
  matchesRouteCore (if cs.getLast? = some '\n' then cs.dropLast else cs)

/-- `Server.registerHandler` (lines 128-131): an invalid key raises
`ValueError('invalid provided path:', path)` before anything is stored; a
valid key is stored by dict assignment, overwriting any previous handler.
(`Server.register`, lines 133-135, performs the same validation before
wrapping; `routes` is the class-level dict.) -/
def registerHandler (routes : List (String × Handler)) (path : String)
    (handler : Handler) : Except PyError (List (String × Handler)) :=
  if isPathValid path then .ok (dictInsert routes path handler)
  else .error (.invalidPath path)

/-- `RateLimiter` state (lines 65-69): the configured limit and window, and
the `defaultdict(list)` from client address to recorded timestamps. -/
structure RateLimiter where
  limit : Nat
  window : Int
  requests : List (String × List Int)
deriving DecidableEq, Repr

/-- `RateLimiter.__init__` with its defaults `limit=100, window=60`. -/
def initRateLimiter (limit : Nat := 100) (window : Int := 60) : RateLimiter :=
  { limit := limit, window := window, requests := [] }

/-- `RateLimiter.is_allowed` (lines 71-77) at explicit time `now`: prune the
client's timestamps to those with `now - t < window` and store the pruned
list (a missing client reads as the empty list, per `defaultdict`); if the
pruned count is below the limit, append `now` and return `True`, else return
`False` without appending. -/
def RateLimiter.is_allowed (rl : RateLimiter) (client_ip : String)
    (now : Int) : Bool × RateLimiter :=
  let current := (dictGet rl.requests client_ip).getD []
  let pruned := current.filter fun t => now - t < rl.window
  if pruned.length < rl.limit then
    (true, { rl with requests := dictInsert rl.requests client_ip (pruned ++ [now]) })
  else
    (false, { rl with requests := dictInsert rl.requests client_ip pruned })

/-- A sequence of `is_allowed` calls, each given as a client and a time,
returning the verdicts in order and the final limiter state. -/
def runAllowed (rl : RateLimiter) : List (String × Int) → List Bool × RateLimiter
  | [] => ([], rl)
  | (c, t) :: rest =>
    let step := rl.is_allowed c t
    let tail := runAllowed step.2 rest
    (step.1 :: tail.1, tail.2)

/-- `rate_limit_middleware` (lines 285-292) with the limiter state passed
explicitly: consult `is_allowed` with the request's client address; on
success run the wrapped handler, otherwise return the fixed pair
`("Rate limit exceeded", 429)`. -/
def rate_limit_middleware (f : Handler) (rl : RateLimiter) (request : Request)
    (now : Int) : HResult × RateLimiter :=
  let step := rl.is_allowed request.client_ip now
  if step.1 then (f request, step.2)
  else (.tuple [.vstr "Rate limit exceeded", .vint 429], step.2)

/-- An instrumented middleware over trace handlers (`Unit → List String`),
used to make execution order observable: it records its name and then runs
the function it wraps. -/
def traceMiddleware (name : String) (f : Unit → List String) :
    Unit → List String :=
  fun u => name :: f u

/-- The timestamp list the limiter currently stores for a client (the empty
list when the client has never been seen, per `defaultdict(list)`). -/
def clientTimes (rl : RateLimiter) (c : String) : List Int :=
  (dictGet rl.requests c).getD []

/-- The malformed-input classes named by the failure-mode requirement for
the parser, phrased over the operations `__parseRequest` itself performs:
no blank-line separator (the split yields a single part), a malformed verb
line (the first head line does not split on spaces into exactly three
fields), or a header line without a colon. -/
def requestMalformed (s : String) : Prop :=
  (pySplit s ("\r\n" ++ "\r\n")).length = 1 ∨
  (∃ head body, pySplit s ("\r\n" ++ "\r\n") = [head, body] ∧
    (pySplit ((pySplit head "\r\n").headD "") " ").length ≠ 3) ∨
  (∃ head body line, pySplit s ("\r\n" ++ "\r\n") = [head, body] ∧
    line ∈ (pySplit head "\r\n").drop 1 ∧ line.toList.contains ':' = false)

/-- Limiter state invariant used in the induction for the timestamp-order
claims: every stored list is sorted and bounded above by `bound`. -/
def limiterInv (rl : RateLimiter) (bound : Int) : Prop :=
  ∀ c, List.Sorted (· ≤ ·) (clientTimes rl c) ∧ ∀ x ∈ clientTimes rl c, x ≤ bound

/- ### Helper lemmas -/

theorem dictGet_dictInsert {α : Type} (d : List (String × α)) (k k' : String)
    (v : α) :
    dictGet (dictInsert d k v) k' = if k' = k then some v else dictGet d k' := by
  induction d with
  | nil =>
    by_cases h : k' = k
    · subst h; simp [dictInsert, dictGet]
    · have h2 : ¬k = k' := fun hh => h hh.symm
      simp [dictInsert, dictGet, h, h2]
  | cons a rest ih =>
    obtain ⟨ak, av⟩ := a
    by_cases hak : ak = k
    · subst hak
      by_cases h : k' = ak
      · subst h; simp [dictInsert, dictGet]
      · have h2 : ¬ak = k' := fun hh => h hh.symm
        simp [dictInsert, dictGet, h, h2]
    · by_cases hx : ak = k'
      · subst hx
        have h3 : ¬ak = k := hak
        simp [dictInsert, dictGet, hak, h3]
      · simp [dictInsert, dictGet, hak, hx, ih]

theorem clientTimes_update (rl : RateLimiter) (c c' : String) (l : List Int) :
    clientTimes { rl with requests := dictInsert rl.requests c l } c' =
      if c' = c then l else clientTimes rl c' := by
  by_cases h : c' = c <;> simp [clientTimes, dictGet_dictInsert, h]

theorem is_allowed_fields (rl : RateLimiter) (c : String) (now : Int) :
    ((rl.is_allowed c now).2).limit = rl.limit ∧
      ((rl.is_allowed c now).2).window = rl.window := by
  unfold RateLimiter.is_allowed
  dsimp only
  split <;> exact ⟨rfl, rfl⟩

theorem chainMiddlewares_nil {α : Type} (f : α) :
    chainMiddlewares [] f = f := rfl

theorem chainMiddlewares_cons {α : Type} (m : α → α) (ms : List (α → α))
    (f : α) : chainMiddlewares (m :: ms) f = m (chainMiddlewares ms f) := rfl

theorem chainMiddlewares_append {α : Type} (gs rs : List (α → α)) (f : α) :
    chainMiddlewares (gs ++ rs) f = chainMiddlewares gs (chainMiddlewares rs f) := by
  unfold chainMiddlewares
  exact List.foldr_append _ _ _ _

theorem chainMiddlewares_trace (names : List String) (h : Unit → List String) :
    chainMiddlewares (names.map traceMiddleware) h () = names ++ h () := by
  induction names with
  | nil => rfl
  | cons n ns ih =>
    calc chainMiddlewares ((n :: ns).map traceMiddleware) h ()
        = n :: chainMiddlewares (ns.map traceMiddleware) h () := rfl
      _ = n :: (ns ++ h ()) := by rw [ih]
      _ = (n :: ns) ++ h () := rfl

theorem parseHeaderLines_error (lines : List String) :
    ∀ acc : List (String × String),
      (∃ line ∈ lines, line.toList.contains ':' = false) →
      ∃ l, parseHeaderLines lines acc = .error (.headerColonMissing l) := by
  induction lines with
  | nil =>
    intro acc h
    obtain ⟨l, hl, _⟩ := h
    cases hl
  | cons line rest ih =>
    intro acc h
    by_cases hc : line.toList.contains ':' = true
    · obtain ⟨l, hl, hl2⟩ := h
      rcases List.mem_cons.mp hl with rfl | hmem
      · rw [hc] at hl2; cases hl2
      · have hred : parseHeaderLines (line :: rest) acc =
            parseHeaderLines rest
              (dictInsert acc
                (String.mk (line.toList.take
                  ((line.toList.takeWhile (fun c => c ≠ ':')).length)))
                (String.mk (line.toList.drop
                  ((line.toList.takeWhile (fun c => c ≠ ':')).length + 2)))) := by
          simp only [parseHeaderLines]
          rw [if_pos hc]
        rw [hred]
        exact ih _ ⟨l, hmem, hl2⟩
    · refine ⟨line, ?_⟩
      simp only [parseHeaderLines]
      rw [if_neg hc]

theorem parseRequest_error_of_badSplit (s : String)
    (h : (pySplit s ("\r\n" ++ "\r\n")).length ≠ 2) :
    parseRequest s = .error (.headBodyUnpack (pySplit s ("\r\n" ++ "\r\n")).length) := by
  unfold parseRequest
  rcases hq : pySplit s ("\r\n" ++ "\r\n") with _ | ⟨a, _ | ⟨b, rest⟩⟩
  · rfl
  · rfl
  · rcases rest with _ | ⟨d, rest2⟩
    · rw [hq] at h; simp at h
    · rfl

theorem parseRequest_error_of_reqLine (s head body : String)
    (hsplit : pySplit s ("\r\n" ++ "\r\n") = [head, body])
    (hbad : (pySplit ((pySplit head "\r\n").headD "") " ").length ≠ 3) :
    parseRequest s =
      .error (.requestLineUnpack (pySplit ((pySplit head "\r\n").headD "") " ").length) := by
  unfold parseRequest
  rw [hsplit]
  dsimp only
  rcases hq : pySplit ((pySplit head "\r\n").headD "") " " with
    _ | ⟨a, _ | ⟨b, _ | ⟨c, _ | ⟨d, rest⟩⟩⟩⟩
  · rfl
  · rfl
  · rfl
  · rw [hq] at hbad; simp at hbad
  · rfl

theorem parseRequest_error_of_header (s head body v p x : String)
    (hsplit : pySplit s ("\r\n" ++ "\r\n") = [head, body])
    (hql : pySplit ((pySplit head "\r\n").headD "") " " = [v, p, x])
    (hbad : ∃ line ∈ (pySplit head "\r\n").drop 1, line.toList.contains ':' = false) :
    ∃ l, parseRequest s = .error (.headerColonMissing l) := by
  obtain ⟨l, hle⟩ := parseHeaderLines_error ((pySplit head "\r\n").drop 1) [] hbad
  refine ⟨l, ?_⟩
  unfold parseRequest
  rw [hsplit]
  dsimp only
  rw [hql]
  dsimp only
  rw [hle]
  rfl

theorem sentResponses_respondWith_le_one (r : HResult) :
    (sentResponses (respondWith r)).length ≤ 1 := by
  rcases r with v | ⟨_ | ⟨a, _ | ⟨b, _ | ⟨c, _ | ⟨d, rest⟩⟩⟩⟩⟩
  · simp [respondWith, sentResponses]
  · simp [respondWith, sentResponses]
  · simp [respondWith, sentResponses]
  · simp [respondWith, sentResponses]
  · cases hc : asHeaderDict c <;> simp [respondWith, sentResponses, hc]
  · simp [respondWith, sentResponses]

theorem sentResponses_handleData_le_one (routes : List (String × Handler))
    (gs : List (Handler → Handler)) (client d : String) :
    (sentResponses (handleData routes gs client d)).length ≤ 1 := by
  unfold handleData
  cases hp : parseRequest (rstripNull d) with
  | error e => simp [sentResponses]
  | ok raw =>
    dsimp only
    cases hb : parse_body raw.headers raw.body with
    | error e => simp [sentResponses]
    | ok pb =>
      dsimp only
      unfold handleParsed
      cases hr : dictGet routes (pathKeyOf
          { verb := raw.verb, path := raw.path, headers := raw.headers,
            body := raw.body, client_ip := client, parsed_body := pb }) with
      | none => simp [sentResponses]
      | some handler =>
        dsimp only
        exact sentResponses_respondWith_le_one _

theorem runAllowed_append (l1 l2 : List (String × Int)) : ∀ rl : RateLimiter,
    runAllowed rl (l1 ++ l2) =
      ((runAllowed rl l1).1 ++ (runAllowed (runAllowed rl l1).2 l2).1,
        (runAllowed (runAllowed rl l1).2 l2).2) := by
  induction l1 with
  | nil => intro rl; simp [runAllowed]
  | cons a rest ih =>
    intro rl
    obtain ⟨c, t⟩ := a
    simp [runAllowed, ih]

theorem runAllowed_fields (calls : List (String × Int)) : ∀ rl : RateLimiter,
    ((runAllowed rl calls).2).limit = rl.limit ∧
      ((runAllowed rl calls).2).window = rl.window := by
  induction calls with
  | nil => intro rl; exact ⟨rfl, rfl⟩
  | cons a rest ih =>
    intro rl
    obtain ⟨c, t⟩ := a
    simp only [runAllowed]
    refine ⟨?_, ?_⟩
    · rw [(ih _).1, (is_allowed_fields rl c t).1]
    · rw [(ih _).2, (is_allowed_fields rl c t).2]

theorem is_allowed_of_filter_eq (rl : RateLimiter) (c : String) (t : Int)
    (acc : List Int) (hacc : clientTimes rl c = acc)
    (hfilter : acc.filter (fun x => decide (t - x < rl.window)) = acc)
    (hlt : acc.length < rl.limit) :
    rl.is_allowed c t =
      (true, { rl with requests := dictInsert rl.requests c (acc ++ [t]) }) := by
  unfold RateLimiter.is_allowed
  dsimp only
  unfold clientTimes at hacc
  rw [hacc, hfilter, if_pos hlt]

theorem is_allowed_reject (rl : RateLimiter) (c : String) (t : Int)
    (acc : List Int) (hacc : clientTimes rl c = acc)
    (hfilter : acc.filter (fun x => decide (t - x < rl.window)) = acc)
    (hge : rl.limit ≤ acc.length) :
    rl.is_allowed c t =
      (false, { rl with requests := dictInsert rl.requests c acc }) := by
  unfold RateLimiter.is_allowed
  dsimp only
  unfold clientTimes at hacc
  rw [hacc, hfilter, if_neg (by omega)]

theorem runAllowed_all_true :
    ∀ (ts : List Int) (rl : RateLimiter) (c : String) (acc : List Int) (lo : Int),
      clientTimes rl c = acc →
      (∀ x ∈ acc, lo ≤ x) →
      (∀ t ∈ ts, lo ≤ t ∧ t - lo < rl.window) →
      acc.length + ts.length ≤ rl.limit →
      (runAllowed rl (ts.map fun t => (c, t))).1 = List.replicate ts.length true ∧
      clientTimes (runAllowed rl (ts.map fun t => (c, t))).2 c = acc ++ ts := by
  intro ts
  induction ts with
  | nil =>
    intro rl c acc lo hacc _ _ _
    simpa [runAllowed] using hacc
  | cons t ts ih =>
    intro rl c acc lo hacc hacclo hts hlen
    have hfilter : acc.filter (fun x => decide (t - x < rl.window)) = acc := by
      rw [List.filter_eq_self]
      intro x hx
      have h1 := hacclo x hx
      have h2 := (hts t (List.mem_cons_self _ _)).2
      exact decide_eq_true (by omega)
    have hlt : acc.length < rl.limit := by
      simp only [List.length_cons] at hlen
      omega
    have hstep := is_allowed_of_filter_eq rl c t acc hacc hfilter hlt
    have hnext := ih { rl with requests := dictInsert rl.requests c (acc ++ [t]) }
      c (acc ++ [t]) lo
      (by simp [clientTimes_update])
      (by
        intro x hx
        rcases List.mem_append.mp hx with h | h
        · exact hacclo x h
        · rcases List.mem_singleton.mp h with rfl
          exact (hts _ (List.mem_cons_self _ _)).1)
      (by
        intro u hu
        exact hts u (List.mem_cons_of_mem _ hu))
      (by simp only [List.length_append, List.length_singleton]
          simp only [List.length_cons] at hlen
          omega)
    simp only [List.map_cons, runAllowed, hstep]
    refine ⟨?_, ?_⟩
    · rw [hnext.1]
      simp [List.replicate_succ]
    · rw [hnext.2]
      simp

theorem limiterInv_mono (rl : RateLimiter) (M B : Int) (h : limiterInv rl M)
    (hMB : M ≤ B) : limiterInv rl B := by
  intro c
  exact ⟨(h c).1, fun x hx => le_trans ((h c).2 x hx) hMB⟩

theorem is_allowed_inv (rl : RateLimiter) (c : String) (t M : Int)
    (hInv : limiterInv rl M) (hMt : M ≤ t) :
    limiterInv (rl.is_allowed c t).2 t := by
  have hsorted := (hInv c).1
  have hbound := (hInv c).2
  have hprunedSorted : List.Sorted (· ≤ ·)
      ((clientTimes rl c).filter (fun x => decide (t - x < rl.window))) :=
    List.Pairwise.filter _ hsorted
  have hprunedBound : ∀ x ∈ (clientTimes rl c).filter
      (fun x => decide (t - x < rl.window)), x ≤ t :=
    fun x hx => le_trans (hbound x (List.mem_of_mem_filter hx)) hMt
  unfold RateLimiter.is_allowed
  dsimp only
  unfold clientTimes at hprunedSorted hprunedBound
  split
  · intro c'
    rw [clientTimes_update]
    by_cases hcc : c' = c
    · rw [if_pos hcc]
      constructor
      · exact List.pairwise_append.mpr
          ⟨hprunedSorted, List.sorted_singleton t,
           fun a ha b hb => by
             rcases List.mem_singleton.mp hb with rfl
             exact hprunedBound a ha⟩
      · intro x hx
        rcases List.mem_append.mp hx with h | h
        · exact hprunedBound x h
        · rcases List.mem_singleton.mp h with rfl
          exact le_refl _
    · rw [if_neg hcc]
      exact ⟨(hInv c').1, fun x hx => le_trans ((hInv c').2 x hx) hMt⟩
  · intro c'
    rw [clientTimes_update]
    by_cases hcc : c' = c
    · rw [if_pos hcc]
      exact ⟨hprunedSorted, hprunedBound⟩
    · rw [if_neg hcc]
      exact ⟨(hInv c').1, fun x hx => le_trans ((hInv c').2 x hx) hMt⟩

theorem runAllowed_inv (calls : List (String × Int)) :
    ∀ (rl : RateLimiter) (M B : Int),
      limiterInv rl M →
      List.Sorted (· ≤ ·) (M :: calls.map Prod.snd) →
      M ≤ B →
      (∀ x ∈ calls.map Prod.snd, x ≤ B) →
      limiterInv (runAllowed rl calls).2 B := by
  induction calls with
  | nil =>
    intro rl M B h _ hMB _
    exact limiterInv_mono rl M B h hMB
  | cons a rest ih =>
    obtain ⟨c, t⟩ := a
    intro rl M B h hsort hMB hbound
    have hm := List.sorted_cons.mp hsort
    have hMt : M ≤ t := hm.1 t (by simp)
    have hstep := is_allowed_inv rl c t M h hMt
    have hsort2 : List.Sorted (· ≤ ·) (t :: rest.map Prod.snd) := by
      simpa using hm.2
    simp only [runAllowed]
    exact ih (rl.is_allowed c t).2 t B hstep hsort2
      (hbound t (by simp)) (fun x hx => hbound x (by simp [hx]))

theorem is_allowed_bounded (rl : RateLimiter) (c : String) (t : Int)
    (h : ∀ c', (clientTimes rl c').length ≤ rl.limit) :
    ∀ c', (clientTimes (rl.is_allowed c t).2 c').length ≤ rl.limit := by
  intro c'
  have hfl : ((clientTimes rl c).filter
      (fun x => decide (t - x < rl.window))).length ≤ rl.limit :=
    le_trans (List.length_filter_le _ _) (h c)
  unfold RateLimiter.is_allowed
  dsimp only
  unfold clientTimes at hfl
  split
  next hcond =>
    rw [clientTimes_update]
    by_cases hcc : c' = c
    · rw [if_pos hcc]
      simp only [List.length_append, List.length_singleton]
      omega
    · rw [if_neg hcc]; exact h c'
  next hcond =>
    rw [clientTimes_update]
    by_cases hcc : c' = c
    · rw [if_pos hcc]; exact hfl
    · rw [if_neg hcc]; exact h c'

theorem runAllowed_bounded (calls : List (String × Int)) :
    ∀ rl : RateLimiter, (∀ c', (clientTimes rl c').length ≤ rl.limit) →
      ∀ c', (clientTimes (runAllowed rl calls).2 c').length ≤ rl.limit := by
  induction calls with
  | nil => intro rl h c'; exact h c'
  | cons a rest ih =>
    obtain ⟨c, t⟩ := a
    intro rl h c'
    simp only [runAllowed]
    have hfield := (is_allowed_fields rl c t).1
    have hrec := ih (rl.is_allowed c t).2
      (by intro c''; rw [hfield]; exact is_allowed_bounded rl c t h c'') c'
    rw [hfield] at hrec
    exact hrec

/- ### Claim theorems -/

/-- C1: for every raw request buffer that is malformed in one of the three
listed ways — no blank-line separator, a malformed verb line, or a header
line without a colon — `__parseRequest` fails with a parse error, and the
worker's handling of that buffer ends with the fault contained: no response
is written and the outcome is `raised` carrying the parse failure, which in
the source means the exception leaves `__handleConnection`, the `with conn:`
block closes the connection, the worker thread terminates, and the server
process (the accept loop) is unaffected. -/
theorem claim_C1_malformed_request_closes_connection
    (routes : List (String × Handler)) (gs : List (Handler → Handler))
    (client data : String) (h : requestMalformed (rstripNull data)) :
    (∃ e, parseRequest (rstripNull data) = .error e) ∧
    (∃ e, handleData routes gs client data = .raised [] (.parseFailure e)) ∧
    sentResponses (handleData routes gs client data) = [] := by
  have hp : ∃ e, parseRequest (rstripNull data) = .error e := by
    rcases h with h1 | ⟨head, body, hsplit, hbad⟩ | ⟨head, body, line, hsplit, hmem, hnc⟩
    · exact ⟨_, parseRequest_error_of_badSplit _ (by rw [h1]; omega)⟩
    · exact ⟨_, parseRequest_error_of_reqLine _ head body hsplit hbad⟩
    · by_cases h3 : (pySplit ((pySplit head "\r\n").headD "") " ").length = 3
      · obtain ⟨v, p, x, hql⟩ := List.length_eq_three.mp h3
        obtain ⟨l, hl⟩ :=
          parseRequest_error_of_header _ head body v p x hsplit hql ⟨line, hmem, hnc⟩
        exact ⟨_, hl⟩
      · exact ⟨_, parseRequest_error_of_reqLine _ head body hsplit h3⟩
  obtain ⟨e, he⟩ := hp
  exact ⟨⟨e, he⟩, ⟨e, by simp [handleData, he]⟩, by simp [handleData, he, sentResponses]⟩

/-- Witness for C1 at the concrete buffer "garbage": it has no blank-line
separator, and the worker outcome is the contained parse fault with nothing
sent. -/
theorem claim_C1_witness :
    requestMalformed (rstripNull "garbage") ∧
    ((∃ e, parseRequest (rstripNull "garbage") = .error e) ∧
     (∃ e, handleData [] [] "1.2.3.4" "garbage" = .raised [] (.parseFailure e)) ∧
     sentResponses (handleData [] [] "1.2.3.4" "garbage") = []) :=
  ⟨Or.inl (by decide),
   claim_C1_malformed_request_closes_connection [] [] "1.2.3.4" "garbage"
     (Or.inl (by decide))⟩

/-- C4 (code bug): the source computes Content-Length as `len(resp)` on the
Python `str` before the final `.encode()`, i.e. it counts characters, not
UTF-8 bytes. On the one-character body "é" the emitted Content-Length is 1
while the encoded body is 2 bytes, so the claimed equality with the UTF-8
byte length fails for non-ASCII bodies; in general the header equals the
character count of the encoded body. -/
theorem claim_C4_content_length_is_character_count :
    (writeReponse (.vstr "é")).contentLength = 1 ∧
    (writeReponse (.vstr "é")).body.utf8ByteSize = 2 ∧
    (writeReponse (.vstr "é")).contentLength ≠
      (writeReponse (.vstr "é")).body.utf8ByteSize ∧
    ∀ (s : String) (code : PyVal) (hs : List (String × String)),
      (writeReponse (.vstr s) code hs).contentLength = s.length ∧
      (writeReponse (.vstr s) code hs).body = s := by
  refine ⟨by decide, by decide, by decide, ?_⟩
  intro s code hs
  exact ⟨rfl, rfl⟩

/-- C5: dispatch is exact-key lookup. With no global middleware, a request
whose `VERB path` key is stored dispatches to exactly the stored handler
(the outcome is fully determined by that handler's result), and a request
whose key is absent is answered by `__writeReponse('', 404)` — status 404
with the empty body. -/
theorem claim_C5_exact_route_dispatch
    (routes : List (String × Handler)) (req req2 : Request) (h : Handler)
    (hfound : dictGet routes (pathKeyOf req) = some h)
    (hmissing : dictGet routes (pathKeyOf req2) = none) :
    handleParsed routes [] req = respondWith (h req) ∧
    handleParsed routes [] req2 =
      .returned [writeReponse (.vstr "") (.vint 404)] ∧
    (writeReponse (.vstr "") (.vint 404)).body = "" ∧
    (writeReponse (.vstr "") (.vint 404)).code = .vint 404 ∧
    (writeReponse (.vstr "") (.vint 404)).contentLength = 0 := by
  refine ⟨?_, ?_, rfl, rfl, rfl⟩
  · unfold handleParsed
    rw [hfound]
    rfl
  · unfold handleParsed
    rw [hmissing]

/-- A concrete request used by witnesses: `GET /a` from client 1.2.3.4 with
an empty raw body. -/
def witnessReqA : Request :=
  { verb := "GET", path := "/a", headers := [], body := "",
    client_ip := "1.2.3.4", parsed_body := .raw "" }

/-- A concrete request used by witnesses: `GET /b` from client 1.2.3.4 with
an empty raw body. -/
def witnessReqB : Request :=
  { verb := "GET", path := "/b", headers := [], body := "",
    client_ip := "1.2.3.4", parsed_body := .raw "" }

/-- A concrete handler used by witnesses: it returns the bare body "ok". -/
def witnessHandlerOk : Handler := fun _ => .bare (.vstr "ok")

/-- Witness for C5 with a one-route table: the matching request runs the
stored handler, the other request gets the empty 404. -/
theorem claim_C5_witness :
    dictGet [("GET /a", witnessHandlerOk)] (pathKeyOf witnessReqA) =
      some witnessHandlerOk ∧
    (handleParsed [("GET /a", witnessHandlerOk)] [] witnessReqA =
      respondWith (witnessHandlerOk witnessReqA) ∧
     handleParsed [("GET /a", witnessHandlerOk)] [] witnessReqB =
      .returned [writeReponse (.vstr "") (.vint 404)] ∧
     (writeReponse (.vstr "") (.vint 404)).body = "" ∧
     (writeReponse (.vstr "") (.vint 404)).code = .vint 404 ∧
     (writeReponse (.vstr "") (.vint 404)).contentLength = 0) :=
  ⟨rfl,
   claim_C5_exact_route_dispatch [("GET /a", witnessHandlerOk)]
     witnessReqA witnessReqB witnessHandlerOk rfl rfl⟩

/-- C6: route-key registration validates against the verb/path pattern. A
key the pattern rejects makes `registerHandler` raise (an error before
anything is stored); a key it accepts is stored under that key by dict
assignment, and the stored handler replaces any previous one for the same
key. -/
theorem claim_C6_registration_validation
    (routes : List (String × Handler)) (key : String) (handler prev : Handler) :
    (isPathValid key = false →
      registerHandler routes key handler = .error (.invalidPath key)) ∧
    (isPathValid key = true →
      registerHandler routes key handler = .ok (dictInsert routes key handler) ∧
      dictGet (dictInsert routes key handler) key = some handler ∧
      dictGet (dictInsert (dictInsert routes key prev) key handler) key =
        some handler) := by
  constructor
  · intro h
    simp [registerHandler, h]
  · intro h
    refine ⟨by simp [registerHandler, h], ?_, ?_⟩
    · rw [dictGet_dictInsert]; simp
    · rw [dictGet_dictInsert]; simp

/-- A second concrete handler used by witnesses: it returns an empty tuple,
a result whose length is neither 2 nor 3. -/
def witnessHandlerBadShape : Handler := fun _ => .tuple []

/-- Witness for C6: the key "FOO /x" fails the pattern and registration
raises; the key "GET /x" passes, is stored, and overwrites. -/
theorem claim_C6_witness :
    (isPathValid "FOO /x" = false ∧
     registerHandler [] "FOO /x" witnessHandlerOk =
       .error (.invalidPath "FOO /x")) ∧
    (isPathValid "GET /x" = true ∧
     (registerHandler [] "GET /x" witnessHandlerOk =
        .ok (dictInsert [] "GET /x" witnessHandlerOk) ∧
      dictGet (dictInsert [] "GET /x" witnessHandlerOk) "GET /x" =
        some witnessHandlerOk ∧
      dictGet (dictInsert (dictInsert [] "GET /x" witnessHandlerBadShape)
          "GET /x" witnessHandlerOk) "GET /x" = some witnessHandlerOk)) :=
  ⟨⟨by decide,
    (claim_C6_registration_validation [] "FOO /x" witnessHandlerOk
      witnessHandlerBadShape).1 (by decide)⟩,
   ⟨by decide,
    (claim_C6_registration_validation [] "GET /x" witnessHandlerOk
      witnessHandlerBadShape).2 (by decide)⟩⟩

/-- C7: when the dispatched result is a tuple whose length is neither 2 nor
3, the worker first sends the 500 response built by `__writeReponse('', 500)`
and then raises the arity `ValueError` of line 198 — the documented double
fault: the response is already on the wire when the exception is thrown. -/
theorem claim_C7_bad_arity_sends_500_then_raises
    (routes : List (String × Handler)) (gs : List (Handler → Handler))
    (req : Request) (h : Handler) (es : List PyVal)
    (hfound : dictGet routes (pathKeyOf req) = some h)
    (hres : (if gs.isEmpty then h req else chainMiddlewares gs h req) = .tuple es)
    (h2 : es.length ≠ 2) (h3 : es.length ≠ 3) :
    handleParsed routes gs req =
      .raised [writeReponse (.vstr "") (.vint 500)] (.badResultArity es.length) ∧
    sentResponses (handleParsed routes gs req) =
      [writeReponse (.vstr "") (.vint 500)] := by
  have hmain : handleParsed routes gs req =
      .raised [writeReponse (.vstr "") (.vint 500)]
        (.badResultArity es.length) := by
    unfold handleParsed
    rw [hfound]
    dsimp only
    rw [hres]
    rcases es with _ | ⟨a, _ | ⟨b, _ | ⟨c, _ | ⟨d, rest⟩⟩⟩⟩
    · rfl
    · rfl
    · simp at h2
    · simp at h3
    · rfl
  exact ⟨hmain, by rw [hmain]; rfl⟩

/-- Witness for C7: a handler returning the empty tuple produces exactly the
500-then-raise outcome. -/
theorem claim_C7_witness :
    handleParsed [("GET /a", witnessHandlerBadShape)] [] witnessReqA =
      .raised [writeReponse (.vstr "") (.vint 500)] (.badResultArity 0) ∧
    sentResponses (handleParsed [("GET /a", witnessHandlerBadShape)] []
        witnessReqA) = [writeReponse (.vstr "") (.vint 500)] :=
  claim_C7_bad_arity_sends_500_then_raises
    [("GET /a", witnessHandlerBadShape)] [] witnessReqA witnessHandlerBadShape
    [] rfl rfl (by decide) (by decide)

/-- C8 counterexample: a connection that delivers the same well-formed routed
request in two successive reads receives exactly one response — the worker
returns after writing the first one (lines 189, 193, 196, 199 all `return`),
so the second request is never read, contradicting the claim that both
requests receive responses. -/
theorem claim_C8_counterexample :
    handleConnection [("GET /a", witnessHandlerOk)] [] "1.2.3.4"
        ["GET /a HTTP/1.1\r\n\r\n", "GET /a HTTP/1.1\r\n\r\n"] =
      .returned [writeReponse (.vstr "ok")] ∧
    (sentResponses (handleConnection [("GET /a", witnessHandlerOk)] [] "1.2.3.4"
        ["GET /a HTTP/1.1\r\n\r\n", "GET /a HTTP/1.1\r\n\r\n"])).length = 1 :=
  ⟨by decide, by decide⟩

/-- C8 as amended: the worker loop reads at most once with data. An
exhausted or empty read closes the connection having sent nothing; a
non-empty first read is processed and the outcome is exactly that of the
single chunk — at most one response is ever sent on a connection, and later
chunks are never read. -/
theorem claim_C8_single_request_per_connection
    (routes : List (String × Handler)) (gs : List (Handler → Handler))
    (client d : String) (rest : List String) (hd : d ≠ "") :
    handleConnection routes gs client [] = .closed [] ∧
    handleConnection routes gs client ("" :: rest) = .closed [] ∧
    handleConnection routes gs client (d :: rest) = handleData routes gs client d ∧
    (sentResponses (handleData routes gs client d)).length ≤ 1 := by
  refine ⟨rfl, by simp [handleConnection], ?_, ?_⟩
  · simp [handleConnection, hd]
  · exact sentResponses_handleData_le_one routes gs client d

/-- Witness for C8 as amended, on the concrete one-route table and a
well-formed request chunk. -/
theorem claim_C8_witness :
    handleConnection [("GET /a", witnessHandlerOk)] [] "1.2.3.4" [] =
      .closed [] ∧
    handleConnection [("GET /a", witnessHandlerOk)] [] "1.2.3.4" [""] =
      .closed [] ∧
    handleConnection [("GET /a", witnessHandlerOk)] [] "1.2.3.4"
        ["GET /a HTTP/1.1\r\n\r\n"] =
      handleData [("GET /a", witnessHandlerOk)] [] "1.2.3.4"
        "GET /a HTTP/1.1\r\n\r\n" ∧
    (sentResponses (handleData [("GET /a", witnessHandlerOk)] [] "1.2.3.4"
        "GET /a HTTP/1.1\r\n\r\n")).length ≤ 1 :=
  claim_C8_single_request_per_connection [("GET /a", witnessHandlerOk)] []
    "1.2.3.4" "GET /a HTTP/1.1\r\n\r\n" [] (by decide)

/-- C10: however the limiter is exercised, a client's stored timestamp list
never exceeds the configured limit — pruning only removes entries, and a
timestamp is appended only when the pruned count is strictly below the
limit. -/
theorem claim_C10_timestamps_bounded_by_limit
    (limit : Nat) (window : Int) (calls : List (String × Int)) (c : String) :
    (clientTimes (runAllowed (initRateLimiter limit window) calls).2 c).length
      ≤ limit := by
  have h0 : ∀ c', (clientTimes (initRateLimiter limit window) c').length ≤
      (initRateLimiter limit window).limit := by
    intro c'
    simp [clientTimes, initRateLimiter, dictGet]
  exact runAllowed_bounded calls (initRateLimiter limit window) h0 c

theorem is_allowed_spec (rl : RateLimiter) (ip : String) (now : Int) :
    (rl.is_allowed ip now).1 =
      decide ((((clientTimes rl ip).filter
        fun x => decide (now - x < rl.window)).length < rl.limit)) ∧
    clientTimes (rl.is_allowed ip now).2 ip =
      ((clientTimes rl ip).filter fun x => decide (now - x < rl.window)) ++
        (if ((clientTimes rl ip).filter
            fun x => decide (now - x < rl.window)).length < rl.limit
         then [now] else []) := by
  unfold RateLimiter.is_allowed clientTimes
  dsimp only
  split
  next hcond =>
    refine ⟨by simp [hcond], ?_⟩
    rw [dictGet_dictInsert]
    simp [hcond]
  next hcond =>
    refine ⟨by simp [hcond], ?_⟩
    rw [dictGet_dictInsert]
    simp [hcond]

theorem is_allowed_after_window (rl : RateLimiter) (c : String) (t2 lo : Int)
    (us' : List Int) (hclient : clientTimes rl c = lo :: us')
    (hlim : us'.length < rl.limit) (hwin : rl.window ≤ t2 - lo) :
    (rl.is_allowed c t2).1 = true := by
  unfold RateLimiter.is_allowed
  dsimp only
  unfold clientTimes at hclient
  rw [hclient]
  rw [List.filter_cons_of_neg]
  · have hlt : (List.filter (fun x => decide (t2 - x < rl.window)) us').length
        < rl.limit := lt_of_le_of_lt (List.length_filter_le _ _) hlim
    rw [if_pos hlt]
  · simp only [decide_eq_true_eq]
    omega

/-- C3: the chain builder folds the middleware list from the right — the
head middleware wraps last and therefore runs first when invoked (made
observable by the trace instantiation, whose names come out in list order
ahead of the base handler's output); composing two lists is the chain of
their concatenation, so a global list wrapped around an already
route-wrapped handler always executes outermost; and dispatch applies the
global list around the stored handler for every request that routes
(`chainMiddlewares [] h = h` covers the empty-list fast path of lines
182-186). -/
theorem claim_C3_middleware_chain_order
    (α : Type) (m : α → α) (ms gs2 rs : List (α → α)) (f : α)
    (names : List String) (h0 : Unit → List String)
    (routes : List (String × Handler)) (gs : List (Handler → Handler))
    (req : Request) (h : Handler)
    (hfound : dictGet routes (pathKeyOf req) = some h) :
    chainMiddlewares (m :: ms) f = m (chainMiddlewares ms f) ∧
    chainMiddlewares (names.map traceMiddleware) h0 () = names ++ h0 () ∧
    chainMiddlewares (gs2 ++ rs) f =
      chainMiddlewares gs2 (chainMiddlewares rs f) ∧
    handleParsed routes gs req = respondWith (chainMiddlewares gs h req) := by
  refine ⟨chainMiddlewares_cons m ms f, chainMiddlewares_trace names h0,
    chainMiddlewares_append gs2 rs f, ?_⟩
  unfold handleParsed
  rw [hfound]
  dsimp only
  cases gs with
  | nil => rfl
  | cons g gtl => rfl

/-- Witness for C3 at concrete instances: a singleton chain over Nat, a
one-name trace, empty list composition, and dispatch through the one-route
table. -/
theorem claim_C3_witness :
    chainMiddlewares (id :: []) (0 : Nat) = id (chainMiddlewares [] (0 : Nat)) ∧
    chainMiddlewares (["m1"].map traceMiddleware) (fun _ => []) () =
      ["m1"] ++ (fun _ : Unit => ([] : List String)) () ∧
    chainMiddlewares ([] ++ []) (0 : Nat) =
      chainMiddlewares [] (chainMiddlewares [] (0 : Nat)) ∧
    handleParsed [("GET /a", witnessHandlerOk)] [] witnessReqA =
      respondWith (chainMiddlewares [] witnessHandlerOk witnessReqA) :=
  claim_C3_middleware_chain_order Nat id [] [] [] 0 ["m1"] (fun _ => [])
    [("GET /a", witnessHandlerOk)] [] witnessReqA witnessHandlerOk rfl

/-- C9: after every allow check (on any prior call history with
nondecreasing call times and a nonnegative window), the checked client's
stored timestamp list is in nondecreasing order and no entry is older than
the window: its age at the time of the check is at most the window. -/
theorem claim_C9_timestamps_sorted_and_fresh
    (limit : Nat) (window : Int) (pre : List (String × Int)) (c : String)
    (t : Int) (hW : 0 ≤ window)
    (hsorted : List.Sorted (· ≤ ·) ((pre ++ [(c, t)]).map Prod.snd)) :
    List.Sorted (· ≤ ·)
      (clientTimes
        (runAllowed (initRateLimiter limit window) (pre ++ [(c, t)])).2 c) ∧
    ∀ x ∈ clientTimes
        (runAllowed (initRateLimiter limit window) (pre ++ [(c, t)])).2 c,
      t - x ≤ window := by
  have hsorted2 : List.Sorted (· ≤ ·) (pre.map Prod.snd ++ [t]) := by
    simpa using hsorted
  have hparts := List.pairwise_append.mp hsorted2
  have hpre_sorted : List.Sorted (· ≤ ·) (pre.map Prod.snd) := hparts.1
  have hpre_le_t : ∀ x ∈ pre.map Prod.snd, x ≤ t :=
    fun x hx => hparts.2.2 x hx t (by simp)
  have hInv0 : limiterInv (initRateLimiter limit window)
      ((pre.map Prod.snd).headD t) := by
    intro c'
    refine ⟨by simp [clientTimes, initRateLimiter, dictGet], ?_⟩
    intro x hx
    simp [clientTimes, initRateLimiter, dictGet] at hx
  have hsortM : List.Sorted (· ≤ ·)
      ((pre.map Prod.snd).headD t :: pre.map Prod.snd) := by
    rcases hl : pre.map Prod.snd with _ | ⟨a, l⟩
    · simp
    · rw [hl] at hpre_sorted
      simp only [List.headD_cons]
      refine List.sorted_cons.mpr ⟨?_, hpre_sorted⟩
      intro b hb
      rcases List.mem_cons.mp hb with rfl | hb2
      · exact le_refl _
      · exact List.rel_of_sorted_cons hpre_sorted b hb2
  have hm0t : (pre.map Prod.snd).headD t ≤ t := by
    rcases hl : pre.map Prod.snd with _ | ⟨a, l⟩
    · simp
    · simp only [List.headD_cons]
      exact hpre_le_t a (by rw [hl]; simp)
  have hInvPre : limiterInv (runAllowed (initRateLimiter limit window) pre).2 t :=
    runAllowed_inv pre (initRateLimiter limit window)
      ((pre.map Prod.snd).headD t) t hInv0 hsortM hm0t hpre_le_t
  have hsplit : (runAllowed (initRateLimiter limit window) (pre ++ [(c, t)])).2 =
      ((runAllowed (initRateLimiter limit window) pre).2.is_allowed c t).2 := by
    rw [runAllowed_append]
    simp [runAllowed]
  obtain ⟨hs0, hb0⟩ := hInvPre c
  have hwin : (runAllowed (initRateLimiter limit window) pre).2.window = window :=
    (runAllowed_fields pre (initRateLimiter limit window)).2
  rw [hsplit]
  obtain ⟨_, hspec⟩ := is_allowed_spec
    (runAllowed (initRateLimiter limit window) pre).2 c t
  constructor
  · rw [hspec]
    refine List.pairwise_append.mpr ⟨List.Pairwise.filter _ hs0, ?_, ?_⟩
    · split <;> simp
    · intro a ha b hb
      split at hb
      · rcases List.mem_singleton.mp hb with rfl
        exact hb0 a (List.mem_of_mem_filter ha)
      · cases hb
  · intro x hx
    rw [hspec] at hx
    rcases List.mem_append.mp hx with hxf | hxs
    · have h2 : t - x <
          (runAllowed (initRateLimiter limit window) pre).2.window :=
        of_decide_eq_true (List.mem_filter.mp hxf).2
      rw [hwin] at h2
      omega
    · split at hxs
      · rcases List.mem_singleton.mp hxs with rfl
        omega
      · cases hxs

/-- Witness for C9 on a concrete two-call history. -/
theorem claim_C9_witness :
    (0 : Int) ≤ 60 ∧
    List.Sorted (· ≤ ·) (([("a", 3)] ++ [("a", 5)]).map Prod.snd) ∧
    (List.Sorted (· ≤ ·)
      (clientTimes
        (runAllowed (initRateLimiter 2 60) ([("a", 3)] ++ [("a", 5)])).2 "a") ∧
     ∀ x ∈ clientTimes
        (runAllowed (initRateLimiter 2 60) ([("a", 3)] ++ [("a", 5)])).2 "a",
       5 - x ≤ 60) :=
  ⟨by decide, by decide,
   claim_C9_timestamps_sorted_and_fresh 2 60 [("a", 3)] "a" 5 (by decide)
     (by decide)⟩

/-- C2: the sliding-window limiter behaves as specified. Per call, the
client's timestamps are first pruned to those within the window of the
current time, a timestamp is appended exactly when the pruned count is
below the limit, and the verdict is that comparison. Consequently, for a
limiter with limit L and window W and L+1 calls from one client all within
W of the earliest time: the first L calls are allowed, the (L+1)-th is
rejected, the rate-limit middleware answers it with the fixed pair
("Rate limit exceeded", 429), and any later call made once W has elapsed
past the earliest recorded timestamp is allowed again. -/
theorem claim_C2_sliding_window_rate_limiting
    (L : Nat) (W : Int) (c : String) (lo tN : Int) (us : List Int)
    (f : Handler) (req : Request)
    (hL : 1 ≤ L) (hlen : us.length = L) (hlo : us.head? = some lo)
    (hin : ∀ x ∈ us ++ [tN], lo ≤ x ∧ x - lo < W)
    (hreq : req.client_ip = c) :
    (∀ (rl : RateLimiter) (ip : String) (now : Int),
      (rl.is_allowed ip now).1 =
        decide ((((clientTimes rl ip).filter
          fun x => decide (now - x < rl.window)).length < rl.limit)) ∧
      clientTimes (rl.is_allowed ip now).2 ip =
        ((clientTimes rl ip).filter fun x => decide (now - x < rl.window)) ++
          (if ((clientTimes rl ip).filter
              fun x => decide (now - x < rl.window)).length < rl.limit
           then [now] else [])) ∧
    (runAllowed (initRateLimiter L W) ((us ++ [tN]).map fun x => (c, x))).1 =
      List.replicate L true ++ [false] ∧
    (rate_limit_middleware f
        (runAllowed (initRateLimiter L W) (us.map fun x => (c, x))).2
        req tN).1 =
      .tuple [.vstr "Rate limit exceeded", .vint 429] ∧
    ∀ t2 : Int, W ≤ t2 - lo →
      (((runAllowed (initRateLimiter L W)
          ((us ++ [tN]).map fun x => (c, x))).2).is_allowed c t2).1 = true := by
  -- the run over the first L calls stores exactly the call times
  have hrun := runAllowed_all_true us (initRateLimiter L W) c [] lo rfl
    (by intro x hx; cases hx)
    (by intro x hx; exact hin x (List.mem_append.mpr (Or.inl hx)))
    (by simp [hlen, initRateLimiter])
  have hclientL :
      clientTimes (runAllowed (initRateLimiter L W)
        (us.map fun x => (c, x))).2 c = us := by
    simpa using hrun.2
  have hwinL : (runAllowed (initRateLimiter L W)
      (us.map fun x => (c, x))).2.window = W :=
    (runAllowed_fields _ (initRateLimiter L W)).2
  have hlimL : (runAllowed (initRateLimiter L W)
      (us.map fun x => (c, x))).2.limit = L :=
    (runAllowed_fields _ (initRateLimiter L W)).1
  -- at time tN the pruning keeps everything, and the list is full: reject
  have hfilterL : us.filter (fun x => decide (tN - x <
      (runAllowed (initRateLimiter L W) (us.map fun x => (c, x))).2.window)) = us := by
    rw [List.filter_eq_self]
    intro x hx
    have h1 := (hin x (List.mem_append.mpr (Or.inl hx))).1
    have h2 := (hin tN (List.mem_append.mpr (Or.inr (by simp)))).2
    rw [hwinL]
    exact decide_eq_true (by omega)
  have hreject := is_allowed_reject
    (runAllowed (initRateLimiter L W) (us.map fun x => (c, x))).2 c tN us
    hclientL hfilterL (by rw [hlimL, hlen])
  have hmap : (us ++ [tN]).map (fun x => (c, x)) =
      (us.map fun x => (c, x)) ++ [(c, tN)] := by simp
  refine ⟨is_allowed_spec, ?_, ?_, ?_⟩
  · -- verdicts: L times true, then false
    rw [hmap, runAllowed_append]
    dsimp only
    rw [hrun.1, hlen]
    simp [runAllowed, hreject]
  · -- the middleware returns the fixed 429 pair on the (L+1)-th call
    unfold rate_limit_middleware
    dsimp only
    rw [hreq, hreject]
    simp
  · -- recovery once the earliest timestamp has aged out
    intro t2 ht2
    have hfinal : (runAllowed (initRateLimiter L W)
        ((us ++ [tN]).map fun x => (c, x))).2 =
        ((runAllowed (initRateLimiter L W)
          (us.map fun x => (c, x))).2.is_allowed c tN).2 := by
      rw [hmap, runAllowed_append]
      simp [runAllowed]
    rw [hfinal, hreject]
    dsimp only
    rcases hus : us with _ | ⟨a, us2⟩
    · rw [hus] at hlen
      simp at hlen
      exfalso
      omega
    · have ha : a = lo := by
        rw [hus] at hlo
        simpa using hlo
      have hlen2 : us2.length + 1 = L := by
        rw [hus] at hlen
        simpa using hlen
      refine is_allowed_after_window _ c t2 lo us2 ?_ ?_ ?_
      · rw [clientTimes_update, if_pos rfl, ha]
      · dsimp only
        rw [← hus, hlimL]
        omega
      · dsimp only
        rw [← hus, hwinL]
        exact ht2

/-- Witness for C2: limit 1, window 60, calls at times 0 and 1 from one
client; the second call is rejected with the fixed pair and a call at time
60 is allowed again. -/
theorem claim_C2_witness :
    ((1 : Nat) ≤ 1 ∧ [(0 : Int)].length = 1 ∧
     [(0 : Int)].head? = some 0 ∧
     (∀ x ∈ [(0 : Int)] ++ [1], (0 : Int) ≤ x ∧ x - 0 < 60) ∧
     witnessReqA.client_ip = "1.2.3.4") ∧
    ((runAllowed (initRateLimiter 1 60)
        (([(0 : Int)] ++ [1]).map fun x => ("1.2.3.4", x))).1 =
      List.replicate 1 true ++ [false] ∧
     (rate_limit_middleware witnessHandlerOk
        (runAllowed (initRateLimiter 1 60)
          ([(0 : Int)].map fun x => ("1.2.3.4", x))).2
        witnessReqA 1).1 =
      .tuple [.vstr "Rate limit exceeded", .vint 429] ∧
     (((runAllowed (initRateLimiter 1 60)
        (([(0 : Int)] ++ [1]).map fun x => ("1.2.3.4", x))).2).is_allowed
          "1.2.3.4" 60).1 = true) :=
  ⟨⟨by decide, by decide, by decide, by decide, rfl⟩,
   (claim_C2_sliding_window_rate_limiting 1 60 "1.2.3.4" 0 1 [0]
      witnessHandlerOk witnessReqA (by decide) (by decide) (by decide)
      (by decide) rfl).2.1,
   (claim_C2_sliding_window_rate_limiting 1 60 "1.2.3.4" 0 1 [0]
      witnessHandlerOk witnessReqA (by decide) (by decide) (by decide)
      (by decide) rfl).2.2.1,
   (claim_C2_sliding_window_rate_limiting 1 60 "1.2.3.4" 0 1 [0]
      witnessHandlerOk witnessReqA (by decide) (by decide) (by decide)
      (by decide) rfl).2.2.2 60 (by decide)⟩
